import Mathlib

/-!
Shallow embedding of `src/include/simple_logger.h` (namespace `simple_logger`).

The header defines:
  * `enum class LogLevel : uint8_t { Debug = 0, Info = 1, Warning = 2, Error = 3 }`;
  * `logLevelToString`, a switch over the level returning its label, with a
    `default:` branch returning `"Unknown"`;
  * `SimpleLoggerConfig`, holding the compile-time threshold `logLevel`, the
    `timezoneAdjustment`, and the lazily opened static `std::ofstream logFile`
    behind `getLogFile()`;
  * the template class `SimpleLogger<Level>`, a scoped statement object that,
    when `Level >= SimpleLoggerConfig::logLevel`, writes a preamble at
    construction, streams tokens with `operator<<`, and writes `std::endl` at
    destruction; when inactive it binds to a static `null_stream` (an
    `std::ostream` constructed with a null buffer) and all bodies are elided
    by `if constexpr (is_active)`;
  * the `LOG_<LEVEL>` macros, expanding to
    `SimpleLogger<LogLevel::level>(SimpleLoggerConfig::getLogFile())`, so the
    macro argument `getLogFile()` is evaluated at the call site before the
    constructor runs, whatever the level.

Stateful pieces (the static `ofstream`, writes, clock reads) are embedded as
explicit state passing over `LogState`.  Time is a total-milliseconds-since-
epoch `Nat` (the C++ code reads `high_resolution_clock` once and takes
`duration_cast` counts of that one duration).  Stream insertion of integers is
embedded as decimal rendering (`natStr`/`intStr`), and `std::setfill('0') <<
std::setw(w)` as left-padding with `'0'` to width `w`.
-/

/-- `enum class LogLevel : uint8_t { Debug = 0, Info = 1, Warning = 2, Error = 3 }`. -/
inductive LogLevel where
  | Debug
  | Info
  | Warning
  | Error
deriving DecidableEq

/-- The underlying `uint8_t` value of each enumerator. -/
def LogLevel.toNat : LogLevel → Nat
  | .Debug => 0
  | .Info => 1
  | .Warning => 2
  | .Error => 3

/-- `logLevelToString`, over the underlying `uint8_t` value: the `switch` has a
case per enumerator and a `default:` branch returning `"Unknown"` for every
other underlying value. -/
def logLevelToString (level : Nat) : String :=
  if level = 0 then "Debug"
  else if level = 1 then "Info"
  else if level = 2 then "Warning"
  else if level = 3 then "Error"
  else "Unknown"

/-- State of the static `std::ofstream SimpleLoggerConfig::logFile`:
whether it is open, the bytes written to it, and how many times an
`std::ofstream(logFileName)` open was attempted (each successful attempt
truncates the file). -/
structure ConfigState where
  isOpen : Bool
  contents : String
  openAttempts : Nat
deriving DecidableEq

/-- `SimpleLoggerConfig::getLogFile()`: if the static file is not open,
construct `std::ofstream(logFileName)` (an open attempt; `ok` says whether the
operating system lets the open succeed, in which case the file is truncated).
Otherwise return the already-open handle unchanged. -/
def getLogFile (ok : Bool) (c : ConfigState) : ConfigState :=
  if c.isOpen then c
  else if ok then { isOpen := true, contents := "", openAttempts := c.openAttempts + 1 }
  else { c with openAttempts := c.openAttempts + 1 }

/-- A sequence of `getLogFile()` calls, one per element of `oks` (each element
saying whether an open attempt made by that call would succeed). -/
def getLogFileN (oks : List Bool) (c : ConfigState) : ConfigState :=
  oks.foldl (fun st ok => getLogFile ok st) c

/-- Observable process state: the log-file handle plus a counter of clock
reads (`std::chrono::high_resolution_clock::now()` is called only inside
`print_time`, so the counter counts timestamp computations). -/
structure LogState where
  config : ConfigState
  timestamps : Nat
deriving DecidableEq

/-- Process start: file not yet open, nothing written, no clock reads. -/
def freshLogState : LogState := ⟨⟨false, "", 0⟩, 0⟩

/-- The stream a statement is bound to: the shared log file, or the static
`null_stream` (an `std::ostream` with a null buffer, which discards writes). -/
inductive Dest where
  | logFile
  | null
deriving DecidableEq

/-- A `SimpleLogger<Level>` object: `is_active` (a compile-time constant of
the template instance) and the stream reference `m_stream` chosen by the
constructor's initializer `m_stream(is_active ? stream : null_stream)`. -/
structure Statement where
  active : Bool
  dest : Dest
deriving DecidableEq

/-- `std::source_location`: file name, line, enclosing function name. -/
structure SourceLocation where
  file_name : String
  line : Nat
  function_name : String

/-- Writing a string to a destination stream.  Writes to the log file append
to it when it is open and are discarded when it is not (a never-opened or
failed `std::ofstream` has `badbit` set and discards output); writes to the
null stream are always discarded. -/
def writeStr (d : Dest) (str : String) (s : LogState) : LogState :=
  match d with
  | .logFile =>
      if s.config.isOpen then
        { s with config := { s.config with contents := s.config.contents ++ str } }
      else s
  | .null => s

/-- The character of a decimal digit (callers only pass values below 10). -/
def digitChar (d : Nat) : Char := Char.ofNat (48 + d % 10)

/-- Decimal digits of `n`, most significant first (`fuel ≥ 1` suffices for
`n < 10^fuel`; callers pass `n + 1`). -/
def natDigitsAux : Nat → Nat → List Char
  | 0, _ => []
  | fuel + 1, n =>
      if n < 10 then [digitChar n]
      else natDigitsAux fuel (n / 10) ++ [digitChar (n % 10)]

/-- Decimal rendering of a natural number, as `operator<<` prints it. -/
def natStr (n : Nat) : String := ⟨natDigitsAux (n + 1) n⟩

/-- Decimal rendering of an integer, as `operator<<` prints it. -/
def intStr (i : Int) : String :=
  if i < 0 then "-" ++ natStr i.natAbs else natStr i.toNat

/-- `std::setfill('0') << std::setw(w)`: right-adjusted output pads with the
fill character on the left up to width `w` (no padding when already wide
enough). -/
def pad (w : Nat) (s : String) : String :=
  (⟨List.replicate (w - s.length) '0'⟩ : String) ++ s

/-- `SimpleLogger::print_time`, over the total milliseconds since epoch `t`
of the one `now()` read and the configured `timezoneAdjustment` `tz`:
`h = hours-count % 24 + tz`, `min = minutes-count % 60`,
`s = seconds-count % 60`, `ms = milliseconds-count % 100`, rendered as
`ww2(h) : ww2(min) : ww2(s) . ww3(ms)` with zero fill. -/
def print_time (tz : Int) (t : Nat) : String :=
  let h : Int := (↑(t / 3600000 % 24) : Int) + tz
  let min : Nat := t / 60000 % 60
  let sec : Nat := t / 1000 % 60
  let ms : Nat := t % 100
  pad 2 (intStr h) ++ ":" ++ pad 2 (natStr min) ++ ":" ++ pad 2 (natStr sec)
    ++ "." ++ pad 3 (natStr ms)

/-- The suffix of `cs` strictly after the last occurrence of `c`, or `none`
when `c` does not occur (`std::strrchr` and the `+ 1` pointer step). -/
def afterLast : List Char → Char → Option (List Char)
  | [], _ => none
  | x :: xs, c =>
      match afterLast xs c with
      | some r => some r
      | none => if x = c then some xs else none

/-- `SimpleLogger::print_file_name`: `std::strrchr(file_path, '/')` finds the
last `'/'`; when found, the suffix after it is printed, otherwise the whole
path. -/
def print_file_name (path : String) : String :=
  match afterLast path.data '/' with
  | some r => ⟨r⟩
  | none => path

/-- `static constexpr bool is_active{Level >= SimpleLoggerConfig::logLevel}`
(comparison of the underlying `uint8_t` values). -/
def is_active (level threshold : LogLevel) : Bool :=
  decide (threshold.toNat ≤ level.toNat)

/-- The preamble the constructor writes when active:
`"[" time "][" label "][" trimmed-file ":" line "][" function "] "`. -/
def preambleStr (level : LogLevel) (tz : Int) (loc : SourceLocation) (now : Nat) : String :=
  "[" ++ print_time tz now ++ "][" ++ logLevelToString level.toNat ++ "]["
    ++ print_file_name loc.file_name ++ ":" ++ natStr loc.line ++ "]["
    ++ loc.function_name ++ "] "

/-- The `SimpleLogger` constructor: `m_stream` binds to the given stream when
active and to `null_stream` otherwise; the body (`print_time` clock read and
preamble writes) runs only under `if constexpr (is_active)`. -/
def mkStatement (level threshold : LogLevel) (tz : Int) (loc : SourceLocation)
    (now : Nat) (s : LogState) : Statement × LogState :=
  let active := is_active level threshold
  let st : Statement := ⟨active, if active then Dest.logFile else Dest.null⟩
  if active then
    (st, writeStr Dest.logFile (preambleStr level tz loc now)
      { s with timestamps := s.timestamps + 1 })
  else (st, s)

/-- `SimpleLogger::get_stream()`: returns `m_stream` unconditionally. -/
def get_stream (st : Statement) : Dest := st.dest

/-- `SimpleLogger::operator<<`: writes the token to `m_stream` under
`if constexpr (is_active)` and returns `*this`. -/
def appendTok (st : Statement) (tok : String) (s : LogState) : Statement × LogState :=
  if st.active then (st, writeStr st.dest tok s) else (st, s)

/-- `SimpleLogger::~SimpleLogger`: writes `std::endl` to `m_stream` under
`if constexpr (is_active)`. -/
def destructStatement (st : Statement) (s : LogState) : LogState :=
  if st.active then writeStr st.dest "\n" s else s

/-- A chain of `operator<<` calls, one per token. -/
def appendAll (st : Statement) (tokens : List String) (s : LogState) : LogState :=
  tokens.foldl (fun acc tok => (appendTok st tok acc).2) s

/-- One full `LOG_<LEVEL> << tok₁ << ... << tokₙ;` statement: the macro
argument `SimpleLoggerConfig::getLogFile()` is evaluated first (whatever the
level), then the `SimpleLogger` object is constructed, the tokens are
streamed, and the object is destroyed at the end of the full expression. -/
def runLogMacro (level threshold : LogLevel) (ok : Bool) (tz : Int)
    (loc : SourceLocation) (now : Nat) (tokens : List String) (s : LogState) : LogState :=
  let s1 : LogState := { s with config := getLogFile ok s.config }
  let p := mkStatement level threshold tz loc now s1
  destructStatement p.1 (appendAll p.1 tokens p.2)

/-- Number of line terminators in a string. -/
def countNl (s : String) : Nat := s.data.count '\n'

/-- Concatenation of streamed tokens in order. -/
def joinTokens : List String → String
  | [] => ""
  | t :: ts => t ++ joinTokens ts

/-! ### Helper lemmas: newline counting -/

theorem digitChar_ne_nl (d : Nat) : digitChar d ≠ '\n' := by
  unfold digitChar
  have hm : d % 10 < 10 := Nat.mod_lt _ (by decide)
  interval_cases h : d % 10 <;> decide

theorem mem_natDigitsAux_ne_nl : ∀ fuel n : Nat, ∀ c ∈ natDigitsAux fuel n, c ≠ '\n' := by
  intro fuel
  induction fuel with
  | zero => intro n c hc; simp [natDigitsAux] at hc
  | succ f ih =>
      intro n c hc
      unfold natDigitsAux at hc
      split at hc
      · simp only [List.mem_singleton] at hc
        subst hc
        exact digitChar_ne_nl n
      · rcases List.mem_append.mp hc with h | h
        · exact ih _ _ h
        · simp only [List.mem_singleton] at h
          subst h
          exact digitChar_ne_nl _

theorem countNl_append (a b : String) : countNl (a ++ b) = countNl a + countNl b := by
  simp [countNl, String.data_append, List.count_append]

theorem countNl_natStr (n : Nat) : countNl (natStr n) = 0 := by
  unfold countNl natStr
  apply List.count_eq_zero.mpr
  intro hmem
  exact mem_natDigitsAux_ne_nl _ _ _ hmem rfl

theorem countNl_intStr (i : Int) : countNl (intStr i) = 0 := by
  unfold intStr
  split
  · rw [countNl_append, countNl_natStr]
    decide
  · exact countNl_natStr _

theorem countNl_pad (w : Nat) (s : String) : countNl (pad w s) = countNl s := by
  unfold pad
  rw [countNl_append]
  have h0 : countNl ⟨List.replicate (w - s.length) '0'⟩ = 0 := by
    unfold countNl
    simp [List.count_replicate]
  rw [h0]
  omega

theorem countNl_print_time (tz : Int) (t : Nat) : countNl (print_time tz t) = 0 := by
  simp only [print_time, countNl_append, countNl_pad, countNl_natStr, countNl_intStr]
  decide

theorem countNl_logLevelToString (n : Nat) : countNl (logLevelToString n) = 0 := by
  unfold logLevelToString
  repeat' split
  all_goals decide

/-! ### Helper lemmas: `afterLast` and file-name trimming -/

theorem afterLast_eq_none {c : Char} : ∀ (cs : List Char), afterLast cs c = none ↔ c ∉ cs
  | [] => by simp [afterLast]
  | x :: xs => by
      have ih := afterLast_eq_none (c := c) xs
      rcases h : afterLast xs c with _ | r
      · have hnot : c ∉ xs := ih.mp h
        by_cases hx : x = c
        · subst hx
          simp [afterLast, h]
        · simp [afterLast, h, hx, hnot, Ne.symm hx]
      · have hmem : c ∈ xs := by
          by_contra hc
          rw [ih.mpr hc] at h
          exact Option.noConfusion h
        simp [afterLast, h, hmem]

theorem afterLast_eq_some {c : Char} :
    ∀ (cs r : List Char), afterLast cs c = some r → (∃ pre, cs = pre ++ c :: r) ∧ c ∉ r
  | [], r => by simp [afterLast]
  | x :: xs, r => by
      intro h
      rcases hx : afterLast xs c with _ | r'
      · simp only [afterLast, hx] at h
        by_cases hxc : x = c
        · rw [if_pos hxc] at h
          injection h with h
          subst h
          subst hxc
          exact ⟨⟨[], by simp⟩, (afterLast_eq_none xs).mp hx⟩
        · rw [if_neg hxc] at h
          exact Option.noConfusion h
      · simp only [afterLast, hx] at h
        injection h with h
        subst h
        obtain ⟨⟨pre, hpre⟩, hout⟩ := afterLast_eq_some xs r' hx
        exact ⟨⟨x :: pre, by simp [hpre]⟩, hout⟩

theorem afterLast_append {c : Char} (b : List Char) (hb : c ∉ b) :
    ∀ (pre : List Char), afterLast (pre ++ c :: b) c = some b
  | [] => by
      have h0 : afterLast b c = none := (afterLast_eq_none b).mpr hb
      rw [List.nil_append]
      unfold afterLast
      rw [h0]
      simp
  | x :: pre => by
      have ih := afterLast_append (c := c) b hb pre
      rw [List.cons_append]
      unfold afterLast
      rw [ih]

theorem print_file_name_no_sep (p : String) (h : '/' ∉ p.data) : print_file_name p = p := by
  unfold print_file_name
  rw [(afterLast_eq_none p.data).mpr h]

theorem print_file_name_concat (a b : String) (hb : '/' ∉ b.data) :
    print_file_name (a ++ "/" ++ b) = b := by
  unfold print_file_name
  have hdata : (a ++ "/" ++ b).data = a.data ++ '/' :: b.data := by
    simp [String.data_append]
  rw [hdata, afterLast_append b.data hb a.data]

theorem print_file_name_sep (q : String) (h : '/' ∈ q.data) :
    (∃ a : List Char, q.data = a ++ '/' :: (print_file_name q).data)
      ∧ '/' ∉ (print_file_name q).data := by
  rcases hq : afterLast q.data '/' with _ | r
  · exact absurd h ((afterLast_eq_none q.data).mp hq)
  · obtain ⟨⟨pre, hpre⟩, hout⟩ := afterLast_eq_some q.data r hq
    have hr : print_file_name q = ⟨r⟩ := by
      unfold print_file_name
      rw [hq]
    rw [hr]
    exact ⟨⟨pre, hpre⟩, hout⟩

theorem countNl_print_file_name (p : String) (h : countNl p = 0) :
    countNl (print_file_name p) = 0 := by
  rcases hq : afterLast p.data '/' with _ | r
  · have hr : print_file_name p = p := by
      unfold print_file_name
      rw [hq]
    rw [hr]
    exact h
  · obtain ⟨⟨pre, hpre⟩, _⟩ := afterLast_eq_some p.data r hq
    have hr : print_file_name p = ⟨r⟩ := by
      unfold print_file_name
      rw [hq]
    rw [hr]
    show List.count '\n' r = 0
    unfold countNl at h
    rw [hpre] at h
    simp only [List.count_append, List.count_cons] at h
    omega

theorem countNl_preambleStr (level : LogLevel) (tz : Int) (loc : SourceLocation) (now : Nat)
    (hf : countNl loc.file_name = 0) (hfn : countNl loc.function_name = 0) :
    countNl (preambleStr level tz loc now) = 0 := by
  unfold preambleStr
  simp only [countNl_append, countNl_print_time, countNl_natStr, countNl_logLevelToString,
    countNl_print_file_name loc.file_name hf, hfn]
  decide

theorem countNl_joinTokens :
    ∀ (tokens : List String), (∀ tok ∈ tokens, countNl tok = 0) →
      countNl (joinTokens tokens) = 0
  | [], _ => rfl
  | t :: ts, h => by
      unfold joinTokens
      rw [countNl_append, h t (by simp),
        countNl_joinTokens ts (fun tok htok => h tok (by simp [htok]))]

/-! ### Helper lemmas: the log-file handle and statement lifecycle -/

theorem getLogFile_of_isOpen {c : ConfigState} (ok : Bool) (h : c.isOpen = true) :
    getLogFile ok c = c := by
  unfold getLogFile
  rw [if_pos h]

theorem getLogFile_true_isOpen (c : ConfigState) : (getLogFile true c).isOpen = true := by
  unfold getLogFile
  split
  · assumption
  · rfl

theorem mkStatement_inactive {level threshold : LogLevel}
    (h : is_active level threshold = false) (tz : Int) (loc : SourceLocation) (now : Nat)
    (s : LogState) :
    mkStatement level threshold tz loc now s = (⟨false, Dest.null⟩, s) := by
  simp [mkStatement, h]

theorem mkStatement_active {level threshold : LogLevel}
    (h : is_active level threshold = true) (tz : Int) (loc : SourceLocation) (now : Nat)
    (s : LogState) :
    mkStatement level threshold tz loc now s =
      (⟨true, Dest.logFile⟩,
        writeStr Dest.logFile (preambleStr level tz loc now)
          { s with timestamps := s.timestamps + 1 }) := by
  simp [mkStatement, h]

theorem appendAll_inactive {st : Statement} (h : st.active = false) :
    ∀ (tokens : List String) (s : LogState), appendAll st tokens s = s
  | [], s => rfl
  | t :: ts, s => by
      unfold appendAll
      simp only [List.foldl_cons]
      have h1 : (appendTok st t s).2 = s := by simp [appendTok, h]
      rw [h1]
      exact appendAll_inactive h ts s

theorem appendAll_active_open {st : Statement} (ha : st.active = true)
    (hd : st.dest = Dest.logFile) :
    ∀ (tokens : List String) (s : LogState), s.config.isOpen = true →
      appendAll st tokens s =
        { s with config := { s.config with contents := s.config.contents ++ joinTokens tokens } }
  | [], s, hopen => by
      simp [appendAll, joinTokens, String.append_empty]
  | t :: ts, s, hopen => by
      have h1 : (appendTok st t s).2 =
          { s with config := { s.config with contents := s.config.contents ++ t } } := by
        simp [appendTok, ha, hd, writeStr, hopen]
      unfold appendAll
      simp only [List.foldl_cons]
      rw [h1]
      have h2 := appendAll_active_open ha hd ts
        { s with config := { s.config with contents := s.config.contents ++ t } }
        (by simpa using hopen)
      unfold appendAll at h2
      rw [h2]
      simp [joinTokens, String.append_assoc]

theorem destructStatement_inactive {st : Statement} (h : st.active = false) (s : LogState) :
    destructStatement st s = s := by
  simp [destructStatement, h]

theorem runLogMacro_inactive {level threshold : LogLevel}
    (h : is_active level threshold = false) (ok : Bool) (tz : Int) (loc : SourceLocation)
    (now : Nat) (tokens : List String) (s : LogState) :
    runLogMacro level threshold ok tz loc now tokens s =
      { s with config := getLogFile ok s.config } := by
  simp only [runLogMacro]
  rw [mkStatement_inactive h]
  rw [appendAll_inactive rfl, destructStatement_inactive rfl]

theorem runLogMacro_active {level threshold : LogLevel}
    (h : is_active level threshold = true) (tz : Int) (loc : SourceLocation)
    (now : Nat) (tokens : List String) (s : LogState) :
    runLogMacro level threshold true tz loc now tokens s =
      { config := { isOpen := true,
                    contents := (getLogFile true s.config).contents
                      ++ (preambleStr level tz loc now ++ (joinTokens tokens ++ "\n")),
                    openAttempts := (getLogFile true s.config).openAttempts },
        timestamps := s.timestamps + 1 } := by
  simp only [runLogMacro]
  rw [mkStatement_active h]
  have hopen : (getLogFile true s.config).isOpen = true := getLogFile_true_isOpen s.config
  have hpre : writeStr Dest.logFile (preambleStr level tz loc now)
      { { s with config := getLogFile true s.config } with
          timestamps := { s with config := getLogFile true s.config }.timestamps + 1 } =
      { config := { getLogFile true s.config with
                    contents := (getLogFile true s.config).contents
                      ++ preambleStr level tz loc now },
        timestamps := s.timestamps + 1 } := by
    simp [writeStr, hopen]
  rw [hpre]
  rw [appendAll_active_open rfl rfl _ _ (by simpa using hopen)]
  have hfin : ∀ s2 : LogState, s2.config.isOpen = true →
      writeStr Dest.logFile "\n" s2 =
        { s2 with config := { s2.config with contents := s2.config.contents ++ "\n" } } := by
    intro s2 h2
    simp [writeStr, h2]
  rw [destructStatement]
  simp only [if_pos rfl]
  rw [hfin _ (by simpa using hopen)]
  rcases hc : getLogFile true s.config with ⟨o, cont, att⟩
  rw [hc] at hopen
  simp only at hopen
  subst hopen
  simp [String.append_assoc]

/-! ### Claims -/

/-- C7: the severity-label mapping is total, pure and stable:
`label(Debug)="Debug"`, `label(Info)="Info"`, `label(Warning)="Warning"`,
`label(Error)="Error"`, and every underlying value outside the four variants
maps to `"Unknown"` (being a Lean function, `logLevelToString` has no side
effects or error conditions). -/
theorem C7_label_total (n : Nat) (h : 4 ≤ n) :
    logLevelToString LogLevel.Debug.toNat = "Debug"
    ∧ logLevelToString LogLevel.Info.toNat = "Info"
    ∧ logLevelToString LogLevel.Warning.toNat = "Warning"
    ∧ logLevelToString LogLevel.Error.toNat = "Error"
    ∧ logLevelToString n = "Unknown" := by
  refine ⟨rfl, rfl, rfl, rfl, ?_⟩
  unfold logLevelToString
  rw [if_neg (by omega), if_neg (by omega), if_neg (by omega), if_neg (by omega)]

/-- Witness for C7 at the out-of-range underlying value 7. -/
theorem C7_label_total_witness :
    logLevelToString LogLevel.Debug.toNat = "Debug"
    ∧ logLevelToString LogLevel.Info.toNat = "Info"
    ∧ logLevelToString LogLevel.Warning.toNat = "Warning"
    ∧ logLevelToString LogLevel.Error.toNat = "Error"
    ∧ logLevelToString 7 = "Unknown" :=
  C7_label_total 7 (by decide)

/-- C8: file-name trimming is a pure function keeping only the last
`'/'`-delimited component, returning the path unchanged when no separator is
present; in particular `trim "/a/b/c.cpp" = "c.cpp"`, `trim "c.cpp" = "c.cpp"`
and `trim "" = ""`. -/
theorem C8_trim_pure (a b : String) (hb : '/' ∉ b.data) :
    print_file_name "/a/b/c.cpp" = "c.cpp"
    ∧ print_file_name "c.cpp" = "c.cpp"
    ∧ print_file_name "" = ""
    ∧ (∀ p : String, '/' ∉ p.data → print_file_name p = p)
    ∧ print_file_name (a ++ "/" ++ b) = b :=
  ⟨by decide, by decide, rfl, print_file_name_no_sep, print_file_name_concat a b hb⟩

/-- Witness for C8 with `a = "/dir"`, `b = "file.cpp"`. -/
theorem C8_trim_pure_witness :
    print_file_name "/a/b/c.cpp" = "c.cpp"
    ∧ print_file_name "c.cpp" = "c.cpp"
    ∧ print_file_name "" = ""
    ∧ (∀ p : String, '/' ∉ p.data → print_file_name p = p)
    ∧ print_file_name ("/dir" ++ "/" ++ "file.cpp") = "file.cpp" :=
  C8_trim_pure "/dir" "file.cpp" (by decide)

/-- C10: only the forward slash is recognized as a separator: a path with
backslashes but no `'/'` (such as `"a\\b\\c.cpp"`) is printed unchanged, and
for a path containing `'/'` exactly the suffix after the last `'/'` is
printed. -/
theorem C10_only_fwd_slash (p q : String) (_h1 : '\\' ∈ p.data) (h2 : '/' ∉ p.data)
    (h3 : '/' ∈ q.data) :
    print_file_name "a\\b\\c.cpp" = "a\\b\\c.cpp"
    ∧ print_file_name p = p
    ∧ (∃ a : List Char, q.data = a ++ '/' :: (print_file_name q).data)
    ∧ '/' ∉ (print_file_name q).data := by
  obtain ⟨hdec, hnot⟩ := print_file_name_sep q h3
  exact ⟨by decide, print_file_name_no_sep p h2, hdec, hnot⟩

/-- Witness for C10 with `p = "dir\\f.cpp"`, `q = "x/y.cpp"`. -/
theorem C10_only_fwd_slash_witness :
    print_file_name "a\\b\\c.cpp" = "a\\b\\c.cpp"
    ∧ print_file_name "dir\\f.cpp" = "dir\\f.cpp"
    ∧ (∃ a : List Char,
        ("x/y.cpp" : String).data = a ++ '/' :: (print_file_name "x/y.cpp").data)
    ∧ '/' ∉ (print_file_name "x/y.cpp").data :=
  C10_only_fwd_slash "dir\\f.cpp" "x/y.cpp" (by decide) (by decide) (by decide)

/-- C9: for an inactive statement, `get_stream` returns the shared null
stream, the construction touches no state, and every write through the
returned stream is discarded, so zero bytes reach any stream. -/
theorem C9_null_stream (level threshold : LogLevel) (tz : Int) (loc : SourceLocation)
    (now : Nat) (s : LogState) (h : is_active level threshold = false) :
    get_stream (mkStatement level threshold tz loc now s).1 = Dest.null
    ∧ (mkStatement level threshold tz loc now s).2 = s
    ∧ (∀ str : String, ∀ s2 : LogState,
        writeStr (get_stream (mkStatement level threshold tz loc now s).1) str s2 = s2) := by
  rw [mkStatement_inactive h]
  exact ⟨rfl, rfl, fun str s2 => rfl⟩

/-- Witness for C9: a Debug statement under threshold Info. -/
theorem C9_null_stream_witness :
    get_stream (mkStatement LogLevel.Debug LogLevel.Info 0 ⟨"m.cpp", 4, "main"⟩ 0
        freshLogState).1 = Dest.null
    ∧ (mkStatement LogLevel.Debug LogLevel.Info 0 ⟨"m.cpp", 4, "main"⟩ 0
        freshLogState).2 = freshLogState
    ∧ (∀ str : String, ∀ s2 : LogState,
        writeStr (get_stream (mkStatement LogLevel.Debug LogLevel.Info 0
          ⟨"m.cpp", 4, "main"⟩ 0 freshLogState).1) str s2 = s2) :=
  C9_null_stream LogLevel.Debug LogLevel.Info 0 ⟨"m.cpp", 4, "main"⟩ 0 freshLogState
    (by decide)

/-- C6: activation is decided exactly once at construction as
`level ≥ ActiveThreshold` and never changes afterwards (`operator<<` returns
the statement unchanged); on an inactive statement both append and
destruction are no-ops. -/
theorem C6_activation (level threshold : LogLevel) (tz : Int) (loc : SourceLocation)
    (now : Nat) (tok : String) (st : Statement) (s : LogState) (h : st.active = false) :
    (is_active level threshold = true ↔ threshold.toNat ≤ level.toNat)
    ∧ (mkStatement level threshold tz loc now s).1.active = is_active level threshold
    ∧ (∀ st2 : Statement, ∀ tok2 : String, ∀ s2 : LogState, (appendTok st2 tok2 s2).1 = st2)
    ∧ appendTok st tok s = (st, s)
    ∧ destructStatement st s = s := by
  refine ⟨by simp [is_active], ?_, ?_, by simp [appendTok, h], destructStatement_inactive h s⟩
  · by_cases hact : is_active level threshold = true
    · rw [mkStatement_active hact, hact]
    · replace hact : is_active level threshold = false := by simpa using hact
      rw [mkStatement_inactive hact, hact]
  · intro st2 tok2 s2
    unfold appendTok
    split <;> rfl

/-- Witness for C6: a Debug statement object under threshold Warning. -/
theorem C6_activation_witness :
    (is_active LogLevel.Debug LogLevel.Warning = true
      ↔ LogLevel.Warning.toNat ≤ LogLevel.Debug.toNat)
    ∧ (mkStatement LogLevel.Debug LogLevel.Warning 0 ⟨"m.cpp", 4, "main"⟩ 0
        freshLogState).1.active = is_active LogLevel.Debug LogLevel.Warning
    ∧ (∀ st2 : Statement, ∀ tok2 : String, ∀ s2 : LogState, (appendTok st2 tok2 s2).1 = st2)
    ∧ appendTok ⟨false, Dest.null⟩ "x" freshLogState = (⟨false, Dest.null⟩, freshLogState)
    ∧ destructStatement ⟨false, Dest.null⟩ freshLogState = freshLogState :=
  C6_activation LogLevel.Debug LogLevel.Warning 0 ⟨"m.cpp", 4, "main"⟩ 0 "x"
    ⟨false, Dest.null⟩ freshLogState (by decide)

/-- C4 counterexample: when the first open attempt fails (the `ofstream` is
still not open), the next `getLogFile()` call constructs a new
`std::ofstream(logFileName)` — a second open attempt — so two calls perform
two opens, not one, refuting "repeated calls never reopen ... including when
an earlier open attempt failed". -/
theorem C4_cex :
    (getLogFileN [false, false] ⟨false, "", 0⟩).openAttempts = 2
    ∧ ¬((getLogFileN [false, false] ⟨false, "", 0⟩).openAttempts = 1) := by
  decide

/-- C4 (amended): when the first call's open succeeds, N calls perform
exactly one open (one truncation) and every later call returns the handle
unchanged; in general any call on an already-open handle is a no-op.  (After
a failed attempt the handle is still not open, and the next call retries the
open — see the counterexample.) -/
theorem C4_idempotent (oks : List Bool) (c : ConfigState) (h : c.isOpen = false) :
    (getLogFileN (true :: oks) c).openAttempts = c.openAttempts + 1
    ∧ (getLogFileN (true :: oks) c).isOpen = true
    ∧ (getLogFileN (true :: oks) c).contents = ""
    ∧ (∀ ok : Bool, ∀ c2 : ConfigState, c2.isOpen = true → getLogFile ok c2 = c2) := by
  have key : ∀ (oks2 : List Bool) (c2 : ConfigState), c2.isOpen = true →
      getLogFileN oks2 c2 = c2 := by
    intro oks2
    induction oks2 with
    | nil => intro c2 h2; rfl
    | cons ok rest ih =>
        intro c2 h2
        unfold getLogFileN
        simp only [List.foldl_cons]
        rw [getLogFile_of_isOpen ok h2]
        exact ih c2 h2
  have h1 : getLogFile true c = ⟨true, "", c.openAttempts + 1⟩ := by
    unfold getLogFile
    rw [if_neg (by simp [h])]
    rfl
  have h2 : getLogFileN (true :: oks) c = ⟨true, "", c.openAttempts + 1⟩ := by
    unfold getLogFileN
    simp only [List.foldl_cons]
    rw [h1]
    have h3 := key oks ⟨true, "", c.openAttempts + 1⟩ rfl
    unfold getLogFileN at h3
    exact h3
  rw [h2]
  exact ⟨rfl, rfl, rfl, fun ok c2 hopen => getLogFile_of_isOpen ok hopen⟩

/-- Witness for C4 (amended): three calls on a fresh handle, the ones after
the successful first being no-ops. -/
theorem C4_idempotent_witness :
    (getLogFileN (true :: [true, false]) ⟨false, "stale", 5⟩).openAttempts
        = (⟨false, "stale", 5⟩ : ConfigState).openAttempts + 1
    ∧ (getLogFileN (true :: [true, false]) ⟨false, "stale", 5⟩).isOpen = true
    ∧ (getLogFileN (true :: [true, false]) ⟨false, "stale", 5⟩).contents = ""
    ∧ (∀ ok : Bool, ∀ c2 : ConfigState, c2.isOpen = true → getLogFile ok c2 = c2) :=
  C4_idempotent [true, false] ⟨false, "stale", 5⟩ rfl

/-- C1 counterexample: under active threshold Info, a Debug-level call via
the `LOG_DEBUG` macro does create the log file: the macro argument
`SimpleLoggerConfig::getLogFile()` is evaluated at the call site before the
(inactive) constructor runs, so from a fresh state one inactive call leaves
the file open with one open (truncation) performed — refuting "no log file
is created or truncated". -/
theorem C1_cex :
    is_active LogLevel.Debug LogLevel.Info = false
    ∧ freshLogState.config.isOpen = false
    ∧ freshLogState.config.openAttempts = 0
    ∧ (runLogMacro LogLevel.Debug LogLevel.Info true 0 ⟨"main.cpp", 10, "main"⟩ 0 []
        freshLogState).config.isOpen = true
    ∧ (runLogMacro LogLevel.Debug LogLevel.Info true 0 ⟨"main.cpp", 10, "main"⟩ 0 []
        freshLogState).config.openAttempts = 1 := by
  decide

/-- C1 (amended): for every call whose severity is below the active
threshold, no timestamp is computed and the destination stream receives zero
bytes, for any sequence of append calls and any call site; the only
observable effect is the `LOG_*` macro's eager evaluation of
`getLogFile()` as the constructor argument, which can create/truncate the
log file on first use. -/
theorem C1_inactive_no_output (level threshold : LogLevel) (ok : Bool) (tz : Int)
    (loc : SourceLocation) (now : Nat) (tokens : List String) (s : LogState)
    (h : is_active level threshold = false) :
    runLogMacro level threshold ok tz loc now tokens s
        = { s with config := getLogFile ok s.config }
    ∧ (runLogMacro level threshold ok tz loc now tokens s).timestamps = s.timestamps
    ∧ (runLogMacro level threshold ok tz loc now tokens s).config.contents
        = (getLogFile ok s.config).contents := by
  have h1 := runLogMacro_inactive h ok tz loc now tokens s
  exact ⟨h1, by rw [h1], by rw [h1]⟩

/-- Witness for C1 (amended): a Debug call under threshold Info with two
appended tokens. -/
theorem C1_inactive_no_output_witness :
    runLogMacro LogLevel.Debug LogLevel.Info true 0 ⟨"main.cpp", 10, "main"⟩ 99
        ["a", "b"] freshLogState
      = { freshLogState with config := getLogFile true freshLogState.config }
    ∧ (runLogMacro LogLevel.Debug LogLevel.Info true 0 ⟨"main.cpp", 10, "main"⟩ 99
        ["a", "b"] freshLogState).timestamps = freshLogState.timestamps
    ∧ (runLogMacro LogLevel.Debug LogLevel.Info true 0 ⟨"main.cpp", 10, "main"⟩ 99
        ["a", "b"] freshLogState).config.contents
      = (getLogFile true freshLogState.config).contents :=
  C1_inactive_no_output LogLevel.Debug LogLevel.Info true 0 ⟨"main.cpp", 10, "main"⟩ 99
    ["a", "b"] freshLogState (by decide)
theorem natDigitsAux_small (fuel n : Nat) (hf : 1 ≤ fuel) (h : n < 10) :
    natDigitsAux fuel n = [digitChar n] := by
  cases fuel with
  | zero => omega
  | succ f =>
      unfold natDigitsAux
      rw [if_pos h]

theorem natStr_length_lt_100 (n : Nat) (h : n < 100) : (natStr n).length ≤ 2 := by
  unfold natStr
  rw [String.length_mk]
  by_cases h10 : n < 10
  · rw [natDigitsAux_small _ _ (by omega) h10]
    simp
  · have hq : n / 10 < 10 := by omega
    have hfuel : 1 ≤ n := by omega
    unfold natDigitsAux
    rw [if_neg h10, natDigitsAux_small _ _ hfuel hq]
    simp

theorem pad_length (w : Nat) (s : String) (h : s.length ≤ w) : (pad w s).length = w := by
  unfold pad
  rw [String.length_append, String.length_mk, List.length_replicate]
  omega

/-- C5: in the rendered timestamp the milliseconds field is the total
millisecond count modulo 100 (only the last two digits of the count),
zero-padded to a width-3 field, and the hours field is the hour count modulo
24 plus the timezone adjustment by plain integer addition, with no
wraparound handling: a negative sum renders negative (`"-1:..."`) and a sum
at or above 24 renders as-is (`"25:..."`); two instants whose millisecond
counts differ by 100 render identically. -/
theorem C5_time_fields :
    (∀ tz : Int, ∀ t : Nat,
        print_time tz t
          = (pad 2 (intStr ((↑(t / 3600000 % 24) : Int) + tz)) ++ ":"
              ++ pad 2 (natStr (t / 60000 % 60)) ++ ":" ++ pad 2 (natStr (t / 1000 % 60)))
            ++ "." ++ pad 3 (natStr (t % 100))
        ∧ (pad 3 (natStr (t % 100))).length = 3)
    ∧ print_time 0 1123 = print_time 0 1023
    ∧ (1123 : Nat) % 1000 ≠ 1023 % 1000
    ∧ print_time (-1) 0 = "-1:00:00.000"
    ∧ print_time 2 (23 * 3600000) = "25:00:00.000" := by
  refine ⟨?_, by decide, by decide, by decide, by decide⟩
  intro tz t
  constructor
  · rfl
  · exact pad_length 3 _ (le_trans (natStr_length_lt_100 (t % 100) (by omega)) (by omega))
theorem str_empty_append (s : String) : "" ++ s = s := by
  apply String.ext
  rw [String.data_append]
  rfl

/-- C2: for every statement whose severity is at or above the active
threshold (and a destination whose open succeeded), exactly one line is
appended to the destination over the SimpleLogger object's lifetime: the
appended bytes contain exactly one line terminator, emitted at destruction
as the final character, for any number of appended tokens. -/
theorem C2_one_line (level threshold : LogLevel) (tz : Int) (loc : SourceLocation)
    (now : Nat) (tokens : List String) (s : LogState)
    (hact : is_active level threshold = true)
    (hf : countNl loc.file_name = 0) (hfn : countNl loc.function_name = 0)
    (htok : ∀ tok ∈ tokens, countNl tok = 0) :
    ∃ line : String,
      (runLogMacro level threshold true tz loc now tokens s).config.contents
        = (getLogFile true s.config).contents ++ line
      ∧ countNl line = 1
      ∧ ∃ body : String, line = body ++ "\n" ∧ countNl body = 0 := by
  refine ⟨preambleStr level tz loc now ++ (joinTokens tokens ++ "\n"), ?_, ?_, ?_⟩
  · rw [runLogMacro_active hact]
  · rw [countNl_append, countNl_append,
      countNl_preambleStr level tz loc now hf hfn, countNl_joinTokens tokens htok]
    decide
  · refine ⟨preambleStr level tz loc now ++ joinTokens tokens,
      (String.append_assoc _ _ _).symm, ?_⟩
    rw [countNl_append, countNl_preambleStr level tz loc now hf hfn,
      countNl_joinTokens tokens htok]

/-- Witness for C2: a Warning statement under threshold Info with one token. -/
theorem C2_one_line_witness :
    ∃ line : String,
      (runLogMacro LogLevel.Warning LogLevel.Info true 0 ⟨"f.cpp", 3, "main"⟩ 450 ["hi"]
        freshLogState).config.contents
        = (getLogFile true freshLogState.config).contents ++ line
      ∧ countNl line = 1
      ∧ ∃ body : String, line = body ++ "\n" ∧ countNl body = 0 :=
  C2_one_line LogLevel.Warning LogLevel.Info 0 ⟨"f.cpp", 3, "main"⟩ 450 ["hi"]
    freshLogState (by decide) (by decide) (by decide) (by decide)

/-- C3: with active threshold Info, one Debug-level call (any tokens, any
call site) followed by one Warning-level call with the single token
`"disk full"` produces a log file containing exactly one line: exactly one
line terminator, at the very end, with the line containing `[Warning]` and
ending in `disk full`. -/
theorem C3_end_to_end (tz : Int) (loc1 loc2 : SourceLocation) (t1 t2 : Nat)
    (tokens1 : List String)
    (hf : countNl loc2.file_name = 0) (hfn : countNl loc2.function_name = 0) :
    countNl (runLogMacro LogLevel.Warning LogLevel.Info true tz loc2 t2 ["disk full"]
        (runLogMacro LogLevel.Debug LogLevel.Info true tz loc1 t1 tokens1
          freshLogState)).config.contents = 1
    ∧ (∃ a b : String,
        (runLogMacro LogLevel.Warning LogLevel.Info true tz loc2 t2 ["disk full"]
          (runLogMacro LogLevel.Debug LogLevel.Info true tz loc1 t1 tokens1
            freshLogState)).config.contents = a ++ ("[Warning]" ++ b))
    ∧ (∃ p : String,
        (runLogMacro LogLevel.Warning LogLevel.Info true tz loc2 t2 ["disk full"]
          (runLogMacro LogLevel.Debug LogLevel.Info true tz loc1 t1 tokens1
            freshLogState)).config.contents = p ++ ("disk full" ++ "\n")) := by
  have h1 : runLogMacro LogLevel.Debug LogLevel.Info true tz loc1 t1 tokens1 freshLogState
      = { config := ⟨true, "", 1⟩, timestamps := 0 } := by
    rw [runLogMacro_inactive (by decide)]
    rfl
  have hout : (runLogMacro LogLevel.Warning LogLevel.Info true tz loc2 t2 ["disk full"]
      (runLogMacro LogLevel.Debug LogLevel.Info true tz loc1 t1 tokens1
        freshLogState)).config.contents
      = preambleStr LogLevel.Warning tz loc2 t2 ++ ("disk full" ++ "\n") := by
    rw [h1, runLogMacro_active (by decide)]
    show "" ++ (preambleStr LogLevel.Warning tz loc2 t2 ++ (("disk full" ++ "") ++ "\n"))
      = preambleStr LogLevel.Warning tz loc2 t2 ++ ("disk full" ++ "\n")
    rw [String.append_empty, str_empty_append]
  refine ⟨?_, ?_, ?_⟩
  · rw [hout, countNl_append, countNl_append,
      countNl_preambleStr LogLevel.Warning tz loc2 t2 hf hfn]
    decide
  · refine ⟨"[" ++ print_time tz t2 ++ "]",
      "[" ++ (print_file_name loc2.file_name ++ (":" ++ (natStr loc2.line
        ++ ("][" ++ (loc2.function_name ++ ("] " ++ ("disk full" ++ "\n"))))))), ?_⟩
    rw [hout]
    unfold preambleStr
    have e3 : logLevelToString LogLevel.Warning.toNat = "Warning" := by decide
    rw [e3]
    apply String.ext
    simp only [String.data_append]
    simp
  · exact ⟨preambleStr LogLevel.Warning tz loc2 t2, by rw [hout]⟩

/-- Witness for C3 at a concrete pair of call sites and times. -/
theorem C3_end_to_end_witness :
    countNl (runLogMacro LogLevel.Warning LogLevel.Info true 0 ⟨"srv.cpp", 8, "run"⟩ 7 ["disk full"]
        (runLogMacro LogLevel.Debug LogLevel.Info true 0 ⟨"srv.cpp", 5, "run"⟩ 3 ["x"]
          freshLogState)).config.contents = 1
    ∧ (∃ a b : String,
        (runLogMacro LogLevel.Warning LogLevel.Info true 0 ⟨"srv.cpp", 8, "run"⟩ 7 ["disk full"]
          (runLogMacro LogLevel.Debug LogLevel.Info true 0 ⟨"srv.cpp", 5, "run"⟩ 3 ["x"]
            freshLogState)).config.contents = a ++ ("[Warning]" ++ b))
    ∧ (∃ p : String,
        (runLogMacro LogLevel.Warning LogLevel.Info true 0 ⟨"srv.cpp", 8, "run"⟩ 7 ["disk full"]
          (runLogMacro LogLevel.Debug LogLevel.Info true 0 ⟨"srv.cpp", 5, "run"⟩ 3 ["x"]
            freshLogState)).config.contents = p ++ ("disk full" ++ "\n")) :=
  C3_end_to_end 0 ⟨"srv.cpp", 5, "run"⟩ ⟨"srv.cpp", 8, "run"⟩ 3 7 ["x"]
    (by decide) (by decide)
